import Mathlib

/-!
Shallow embedding of `query-params-mongo` (src/index.js): a translator from
HTTP query-string parameters to a MongoDB criteria object consisting of
filter, sort, limit and offset.  Definitions mirror the JavaScript source;
theorems settle the claims about it.
-/

set_option autoImplicit false

namespace Qpm

/- ---------------------------------------------------------------------
   JavaScript string primitives, modelled over `List Char` so that every
   definition reduces in the kernel.
--------------------------------------------------------------------- -/

/-- Infix test on lists (contiguous subsequence). -/
def listInfix (sub : List Char) : List Char → Bool
  | [] => sub.isEmpty
  | c :: t => sub.isPrefixOf (c :: t) || listInfix sub t

/-- Substring test, as in a JS regex literal test `/sub/.test(s)`. -/
def strContains (s sub : String) : Bool :=
  listInfix sub.data s.data

/-- Prefix test, as in JS `s.substr(0, pre.length) == pre` / `/^pre/.test(s)`. -/
def strStartsWith (s pre : String) : Bool :=
  pre.data.isPrefixOf s.data

/-- Suffix test, as in a JS regex `/suf$/.test(s)`. -/
def strEndsWith (s suf : String) : Bool :=
  suf.data.isSuffixOf s.data

/-- Drop the first character, as in JS `s.substr(1)`. -/
def strDropFirst (s : String) : String :=
  String.mk (s.data.drop 1)

/-- ASCII lower-casing of one character (enough for `/i` regex flags here). -/
def asciiLower (c : Char) : Char :=
  if 'A' ≤ c ∧ c ≤ 'Z' then Char.ofNat (c.toNat + 32) else c

/-- ASCII lower-casing of a string. -/
def strToLower (s : String) : String :=
  String.mk (s.data.map asciiLower)

/-- Worker for `jsSplit`, with fuel bounded by the input length. -/
def jsSplitAux (sep : List Char) : Nat → List Char → List Char → List (List Char)
  | 0, cur, cs => [cur.reverse ++ cs]
  | fuel + 1, cur, cs =>
    if sep.isPrefixOf cs then
      cur.reverse :: jsSplitAux sep fuel [] (cs.drop sep.length)
    else
      match cs with
      | [] => [cur.reverse]
      | c :: t => jsSplitAux sep fuel (c :: cur) t

/-- JS `s.split(sep)` for a non-empty separator (non-overlapping, left to
right; a trailing separator yields a trailing empty piece). -/
def jsSplit (s sep : String) : List String :=
  (jsSplitAux sep.data (s.data.length + 1) [] s.data).map String.mk

/-- JS `Array.prototype.join(',')`, used when an array value is coerced to a
string (e.g. inside an error message). -/
def joinComma : List String → String
  | [] => ""
  | [x] => x
  | x :: y :: t => x ++ "," ++ joinComma (y :: t)

/-- The whitespace skipped by JS `parseInt`/`parseFloat`. -/
def isJsWhitespace (c : Char) : Bool :=
  c == ' ' || c == '\t' || c == '\n' || c == '\r' || c == '\x0b' || c == '\x0c'

/-- Value of a hexadecimal digit. -/
def hexVal (c : Char) : Nat :=
  if c.isDigit then c.toNat - 48
  else if 'a' ≤ c ∧ c ≤ 'f' then c.toNat - 87
  else if 'A' ≤ c ∧ c ≤ 'F' then c.toNat - 55
  else 0

/-- Hexadecimal digit test. -/
def isHexDigitChar (c : Char) : Bool :=
  c.isDigit || ('a' ≤ c ∧ c ≤ 'f') || ('A' ≤ c ∧ c ≤ 'F')

/-- Decimal value of a digit string. -/
def digitsToNat (l : List Char) : Nat :=
  l.foldl (fun a c => a * 10 + (c.toNat - 48)) 0

/- ---------------------------------------------------------------------
   JavaScript values, as produced by the data-type converters and the
   predicate builder.  `vUndefined` is JS `undefined`; `vRegex src ign` is a
   `RegExp` built from source `src`, with the `i` flag iff `ign`.
--------------------------------------------------------------------- -/

inductive JsValue where
  | vStr (s : String)
  | vInt (n : Int)
  | vFloat (q : Rat)
  | vBool (b : Bool)
  | vDate (d : Int)
  | vRegex (source : String) (ignoreCase : Bool)
  | vUndefined
  deriving DecidableEq

/-- JS `parseInt(str)` (radix unspecified: optional sign, optional `0x`
prefix, longest digit prefix); `vUndefined` stands for `NaN`. -/
def js_parseInt (s : String) : JsValue :=
  let cs := s.data.dropWhile isJsWhitespace
  let sgncs : Int × List Char :=
    match cs with
    | '-' :: t => (-1, t)
    | '+' :: t => (1, t)
    | t => (1, t)
  let basecs : Nat × List Char :=
    match sgncs.2 with
    | '0' :: 'x' :: t => (16, t)
    | '0' :: 'X' :: t => (16, t)
    | t => (10, t)
  let ds := basecs.2.takeWhile (fun c => if basecs.1 == 16 then isHexDigitChar c else c.isDigit)
  if ds.isEmpty then .vUndefined
  else .vInt (sgncs.1 * (ds.foldl (fun a c => a * basecs.1 + hexVal c) 0 : Nat))

/-- JS `parseFloat(str)` on finite decimal notation (optional sign, digits,
fraction, exponent); `vUndefined` stands for `NaN`.  `Infinity` literals are not
modelled: no claim exercises them. -/
def js_parseFloat (s : String) : JsValue :=
  let cs := s.data.dropWhile isJsWhitespace
  let sgncs : Int × List Char :=
    match cs with
    | '-' :: t => (-1, t)
    | '+' :: t => (1, t)
    | t => (1, t)
  let intDs := sgncs.2.takeWhile Char.isDigit
  let rest1 := sgncs.2.drop intDs.length
  let fracp : List Char × List Char :=
    match rest1 with
    | '.' :: t => (t.takeWhile Char.isDigit, t.drop (t.takeWhile Char.isDigit).length)
    | _ => ([], rest1)
  if intDs.isEmpty && fracp.1.isEmpty then .vUndefined
  else
    let expVal : Int :=
      match fracp.2 with
      | 'e' :: t | 'E' :: t =>
        let esgn : Int × List Char :=
          match t with
          | '-' :: u => (-1, u)
          | '+' :: u => (1, u)
          | u => (1, u)
        let eds := esgn.2.takeWhile Char.isDigit
        if eds.isEmpty then 0 else esgn.1 * (digitsToNat eds : Nat)
      | _ => 0
    let base : Rat :=
      (digitsToNat intDs : Rat) + (digitsToNat fracp.1 : Rat) / ((10 : Rat) ^ fracp.1.length)
    .vFloat ((sgncs.1 : Rat) * base * (10 : Rat) ^ expVal)

/-- Leap-year rule of the proleptic Gregorian calendar. -/
def isLeapYear (y : Nat) : Bool :=
  (y % 4 == 0 && y % 100 != 0) || y % 400 == 0

/-- Number of days in a month. -/
def daysInMonth (y m : Nat) : Nat :=
  if m == 2 then (if isLeapYear y then 29 else 28)
  else if m == 4 || m == 6 || m == 9 || m == 11 then 30
  else 31

/-- Models `new Date(str)` validity for ISO `YYYY-MM-DD` date-only strings —
the only shape of Date input the claims exercise; other ECMAScript date
formats are outside their scope.  A valid calendar date is encoded by its
digits; an invalid one is `vUndefined` (the converter's `isNaN(d.getTime())`). -/
def js_parseDate (s : String) : JsValue :=
  match s.data with
  | [y1, y2, y3, y4, '-', m1, m2, '-', d1, d2] =>
    if [y1, y2, y3, y4, m1, m2, d1, d2].all Char.isDigit then
      let y := digitsToNat [y1, y2, y3, y4]
      let m := digitsToNat [m1, m2]
      let d := digitsToNat [d1, d2]
      if 1 ≤ m ∧ m ≤ 12 ∧ 1 ≤ d ∧ d ≤ daysInMonth y m then
        .vDate (Int.ofNat (y * 10000 + m * 100 + d))
      else .vUndefined
    else .vUndefined
  | _ => .vUndefined

/- ---------------------------------------------------------------------
   Built-in data-type converters (`defaultDataTypeConverters` in index.js).
   A converter takes the raw string and yields a `JsValue`; `vUndefined` is the
   JS `undefined` that signals a conversion failure.
--------------------------------------------------------------------- -/

/-- `string: function(str) { return str; }` -/
def convString (s : String) : JsValue := .vStr s

/-- `int: parseInt, undefined on NaN`. -/
def convInt (s : String) : JsValue := js_parseInt s

/-- `float: parseFloat, undefined on NaN`. -/
def convFloat (s : String) : JsValue := js_parseFloat s

/-- `date: new Date(str), undefined on invalid date`. -/
def convDate (s : String) : JsValue := js_parseDate s

/-- JS `/^n|^f/i.test(str)`: does the string begin with `n` or `f`,
case-insensitively? -/
def startsWithNorF (s : String) : Bool :=
  match s.data with
  | c :: _ => c == 'n' || c == 'N' || c == 'f' || c == 'F'
  | [] => false

/-- `bool` converter, verbatim from the source:
`return !/^n|^f/i.test(str) || str == '0';`
(the `!` binds only to the regex test). -/
def convBool (s : String) : JsValue :=
  .vBool (!(startsWithNorF s) || s == "0")

/-- The module-level `defaultDataTypeConverters` table. -/
def defaultDataTypeConverters : List (String × (String → JsValue)) :=
  [("string", convString), ("int", convInt), ("float", convFloat),
   ("date", convDate), ("bool", convBool)]

/- ---------------------------------------------------------------------
   Built-in auto-detect rules (`defaultAutoDetectTypes` in index.js).
   Regex patterns become boolean string predicates.
--------------------------------------------------------------------- -/

/-- An auto-detect rule: `{ fieldPattern?, valuePattern?, dataType }`. -/
structure ADRule where
  fieldPattern : Option (String → Bool) := none
  valuePattern : Option (String → Bool) := none
  dataType : String

/-- `/^is/` -/
def pat_is (s : String) : Bool := strStartsWith s "is"

/-- `/_date$/` -/
def pat_dateField (s : String) : Bool := strEndsWith s "_date"

/-- `/^[0-9]+$/` -/
def pat_int (s : String) : Bool :=
  !s.data.isEmpty && s.data.all Char.isDigit

/-- `/^[0-9]*\.[0-9]+$/` -/
def pat_float (s : String) : Bool :=
  match jsSplit s "." with
  | [a, b] => a.data.all Char.isDigit && !b.data.isEmpty && b.data.all Char.isDigit
  | _ => false

/-- `/^true|false|yes|no$/i` — note the alternation precedence: anchored
`^true`, unanchored `false` and `yes`, anchored `no$`. -/
def pat_boolValue (s : String) : Bool :=
  let t := strToLower s
  strStartsWith t "true" || strContains t "false" || strContains t "yes" || strEndsWith t "no"

/-- `/^[0-9][0-9-: ]+$/` -/
def pat_dateValue (s : String) : Bool :=
  match s.data with
  | [] => false
  | c :: rest =>
    c.isDigit && !rest.isEmpty
      && rest.all (fun d => d.isDigit || d == '-' || d == ':' || d == ' ')

/-- `{ fieldPattern: /^is/, dataType: 'bool' }` -/
def adRuleIsBool : ADRule := { fieldPattern := some pat_is, dataType := "bool" }

/-- `{ fieldPattern: /_date$/, dataType: 'date' }` -/
def adRuleDateField : ADRule := { fieldPattern := some pat_dateField, dataType := "date" }

/-- `{ valuePattern: /^[0-9]+$/, dataType: 'int' }` -/
def adRuleIntValue : ADRule := { valuePattern := some pat_int, dataType := "int" }

/-- `{ valuePattern: /^[0-9]*\.[0-9]+$/, dataType: 'float' }` -/
def adRuleFloatValue : ADRule := { valuePattern := some pat_float, dataType := "float" }

/-- `{ valuePattern: /^true|false|yes|no$/i, dataType: 'bool' }` -/
def adRuleBoolValue : ADRule := { valuePattern := some pat_boolValue, dataType := "bool" }

/-- `{ valuePattern: /^[0-9][0-9-: ]+$/, dataType: 'date' }` -/
def adRuleDateValue : ADRule := { valuePattern := some pat_dateValue, dataType := "date" }

/-- The module-level `defaultAutoDetectTypes` rule list, in source order. -/
def defaultAutoDetectTypes : List ADRule :=
  [adRuleIsBool, adRuleDateField, adRuleIntValue, adRuleFloatValue,
   adRuleBoolValue, adRuleDateValue]

/- ---------------------------------------------------------------------
   The factory `qpm` (module.exports).  In the source,
   `var dataTypeConverters = defaultDataTypeConverters` aliases the shared
   module-level table, and caller converters are written through the alias,
   mutating that table for the rest of the process.  The mutable module
   state is made explicit as `QpmState`, threaded through `qpm`.
--------------------------------------------------------------------- -/

/-- The `opts` argument of the factory. -/
structure QpmOpts where
  autoDetect : Option (List ADRule) := none
  converters : Option (List (String × (String → JsValue))) := none

/-- The per-process mutable module state: the shared default converter
table that `qpm` aliases and writes through. -/
structure QpmState where
  defaultConverters : List (String × (String → JsValue))

/-- Module state at load time. -/
def initialQpmState : QpmState :=
  { defaultConverters := defaultDataTypeConverters }

/-- The immutable-by-intent configuration captured by one processor. -/
structure Config where
  autoDetectTypes : List ADRule
  dataTypeConverters : List (String × (String → JsValue))

/-- JS object update `m[k] = v`: replace in place, or append. -/
def insertOrReplace {β : Type} : List (String × β) → String → β → List (String × β)
  | [], k, v => [(k, v)]
  | (k', v') :: t, k, v =>
    if k' == k then (k, v) :: t else (k', v') :: insertOrReplace t k v

/-- The exported factory `qpm(opts)`.  User auto-detect rules precede the
defaults; user converters overwrite entries of the shared default table
(through the alias), so the updated table is both the new module state and
the table captured by the returned processor. -/
def qpm (st : QpmState) (opts : QpmOpts) : QpmState × Config :=
  let autoDetectTypes := (opts.autoDetect.getD []) ++ defaultAutoDetectTypes
  let newConverters :=
    match opts.converters with
    | none => st.defaultConverters
    | some cs => cs.foldl (fun acc p => insertOrReplace acc p.1 p.2) st.defaultConverters
  ({ defaultConverters := newConverters },
   { autoDetectTypes := autoDetectTypes, dataTypeConverters := newConverters })

/- ---------------------------------------------------------------------
   The query processor `processQuery(params, fields, validate)`.
--------------------------------------------------------------------- -/

/-- The fixed operator vocabulary (`validOperators` in index.js). -/
def validOperators : List String :=
  ["eq", "ne", "gt", "gte", "lt", "lte", "in", "nin", "all", "exists",
   "eqa",
   "sw", "swin", "isw", "iswin", "co", "coin", "ico", "icoin", "re", "rein", "ire", "irein"]

/-- `isMultiValOp`: `/in/.test(paramOp) || paramOp == 'all' || paramOp == 'eqa'`. -/
def isMultiValOp (paramOp : String) : Bool :=
  strContains paramOp "in" || paramOp == "all" || paramOp == "eqa"

/-- The characters escaped by `regEscape`: the class `[.?*+^$[\]\\(){}|-]`. -/
def isRegexMeta (c : Char) : Bool :=
  c == '.' || c == '?' || c == '*' || c == '+' || c == '^' || c == '$' ||
  c == '[' || c == ']' || c == '\\' || c == '(' || c == ')' ||
  c == '\x7b' || c == '\x7d' || c == '|' || c == '-'

/-- `regEscape(pattern)` on a string: prefix every metacharacter with a
backslash (`pattern.replace(/[.?*+^$[\]\\(){}|-]/g, "\\$&")`). -/
def regEscape (s : String) : String :=
  String.mk (s.data.foldr (fun c acc => (if isRegexMeta c then ['\\', c] else [c]) ++ acc) [])

/-- A raw query-parameter value: a string, or an array of strings when the
parameter occurred several times. -/
inductive RawValue where
  | str (s : String)
  | arr (xs : List String)
  deriving DecidableEq

/-- JS string coercion of a raw value (arrays join on a comma). -/
def rawToString : RawValue → String
  | .str s => s
  | .arr xs => joinComma xs

/-- JS truthiness of a raw value (`""` is falsy, arrays are truthy). -/
def jsTruthyRaw : RawValue → Bool
  | .str s => s != ""
  | .arr _ => true

/-- One field specification: `{dataType?, required?}`. -/
structure FieldSpec where
  dataType : Option String := none
  required : Bool := false
  deriving DecidableEq

/-- A filter value: one scalar, or an array kept as such. -/
inductive FilterValue where
  | scalar (v : JsValue)
  | arr (vs : List JsValue)
  deriving DecidableEq

/-- A filter entry: a direct `$eq` assignment, or an operator object
`{$gt: v, ...}`. -/
inductive FilterEntry where
  | direct (v : FilterValue)
  | ops (m : List (String × FilterValue))
  deriving DecidableEq

/-- The filter object under construction, in insertion order. -/
abbrev Filter := List (String × FilterEntry)

/-- Step (a) of the value pipeline: split a single string on commas when the
operator is multi-valued, otherwise wrap it; a true multi-occurrence array is
left untouched. -/
def splitValues (paramOp : String) (raw : RawValue) : List String :=
  match raw with
  | .arr xs => xs
  | .str s => if isMultiValOp paramOp then jsSplit s "," else [s]

/-- Does an auto-detect rule match?  `(ad.valuePattern && ad.valuePattern.test(v0))
|| (ad.fieldPattern && ad.fieldPattern.test(name))` — the value pattern is
tested (short-circuit) before the field pattern of the same rule.  An absent
first raw value is coerced by `RegExp.test` to the string `"undefined"`. -/
def ruleMatches (ad : ADRule) (v0 name : String) : Bool :=
  (match ad.valuePattern with
   | some p => p v0
   | none => false)
  || (match ad.fieldPattern with
      | some p => p name
      | none => false)

/-- The type resolver (index.js lines 125-146): explicit field spec first
(`''`/absent dataType falls back to `'string'` by JS truthiness), otherwise —
recording a strict-mode diagnostic — `exists` forces `bool`, else the first
matching auto-detect rule wins, else `'string'`.  Returns the resolved type
and the diagnostics this step pushed. -/
def resolveDataType (rules : List ADRule) (fields : List (String × FieldSpec))
    (validate : Bool) (paramName paramOp : String) (paramValues : List String) :
    String × List String :=
  match fields.lookup paramName with
  | some fspec =>
    (match fspec.dataType with
     | some dt => if dt == "" then "string" else dt
     | none => "string", [])
  | none =>
    let errs := if validate then ["Missing field spec: " ++ paramName] else []
    if paramOp == "exists" then ("bool", errs)
    else
      match rules.find? (fun ad => ruleMatches ad (paramValues.headD "undefined") paramName) with
      | some ad => (ad.dataType, errs)
      | none => ("string", errs)

/-- Step (b): `paramValues.map(converter)` inside `try`.  A missing converter
makes the `map` call throw, which the `catch` turns into `[undefined]`. -/
def convertValues (converters : List (String × (String → JsValue)))
    (dataType : String) (vals : List String) : List JsValue :=
  match converters.lookup dataType with
  | some c => vals.map c
  | none => [.vUndefined]

/-- `RegExp(v, opts)` coerces a non-string argument to its string form;
`RegExp(undefined)` is the empty pattern `(?:)`.  Exact JS number/date
string formatting is irrelevant to the claims; regex-source syntax errors
are not modelled (every claim input is a syntactically valid pattern). -/
def jsToRegexSource : JsValue → String
  | .vStr s => s
  | .vUndefined => "(?:)"
  | .vInt n => toString n
  | .vFloat q => toString q
  | .vBool b => if b then "true" else "false"
  | .vDate d => toString d
  | .vRegex src _ => src

/-- `RegExp('^' + regEscape(v), opts)` for the `sw` family.  `regEscape`
returns `undefined` for `undefined` (so the source is `"^undefined"`), and
throws a `TypeError` on any other non-string, which nothing catches. -/
def swRegex (ign : Bool) : JsValue → Except String JsValue
  | .vStr s => .ok (.vRegex ("^" ++ regEscape s) ign)
  | .vUndefined => .ok (.vRegex "^undefined" ign)
  | _ => .error "TypeError: pattern.replace is not a function"

/-- `RegExp(regEscape(v), opts)` for the `co` family; `regEscape(undefined)`
is `undefined`, and `RegExp(undefined)` is the empty pattern. -/
def coRegex (ign : Bool) : JsValue → Except String JsValue
  | .vStr s => .ok (.vRegex (regEscape s) ign)
  | .vUndefined => .ok (.vRegex "(?:)" ign)
  | _ => .error "TypeError: pattern.replace is not a function"

/-- `map` with exception propagation (a thrown `TypeError` aborts the call). -/
def mapExcept {α β : Type} (f : α → Except String β) : List α → Except String (List β)
  | [] => .ok []
  | a :: t =>
    match f a with
    | .error e => .error e
    | .ok b =>
      match mapExcept f t with
      | .error e => .error e
      | .ok bs => .ok (b :: bs)

/-- Param-operator to Mongo-operator conversion (index.js lines 168-195):
branch order `re`, `sw`, `co`, `eqa`, default; the `re` branch tests
`paramOp == 'rein'` for `$in` while `sw`/`co` test `/in/`; the `i` regex flag
is set iff the operator's first character is `i`. -/
def applyOperator (paramOp : String) (vals : List JsValue) :
    Except String (String × List JsValue) :=
  let reOptions := strStartsWith paramOp "i"
  if strContains paramOp "re" then
    .ok ((if paramOp == "rein" then "$in" else "$eq"),
         vals.map (fun v => .vRegex (jsToRegexSource v) reOptions))
  else if strContains paramOp "sw" then
    match mapExcept (swRegex reOptions) vals with
    | .error e => .error e
    | .ok vs => .ok ((if strContains paramOp "in" then "$in" else "$eq"), vs)
  else if strContains paramOp "co" then
    match mapExcept (coRegex reOptions) vals with
    | .error e => .error e
    | .ok vs => .ok ((if strContains paramOp "in" then "$in" else "$eq"), vs)
  else if paramOp == "eqa" then
    .ok ("$eq", vals)
  else
    .ok ("$" ++ paramOp, vals)

/-- The array/scalar collapsing rule (index.js lines 207-209): keep the array
iff it has more than one element or the operator is multi-valued, else use
the single element (`undefined` for an empty array, as `paramValues[0]`). -/
def collapseValue (paramOp : String) (vals : List JsValue) : FilterValue :=
  if 1 < vals.length ∨ isMultiValOp paramOp = true then .arr vals
  else .scalar (vals.headD .vUndefined)

/-- JS truthiness of a filter entry (objects and arrays are truthy). -/
def jsTruthyEntry : FilterEntry → Bool
  | .ops _ => true
  | .direct (.arr _) => true
  | .direct (.scalar v) =>
    match v with
    | .vStr s => s != ""
    | .vInt n => n != 0
    | .vFloat q => q != 0
    | .vBool b => b
    | .vUndefined => false
    | .vDate _ => true
    | .vRegex _ _ => true

/-- Writing one predicate into the filter (index.js lines 211-216): `$eq`
assigns directly; any other operator nests under
`filter[name] = filter[name] || {}` and `filter[name][$op] = value`.  A
truthy existing non-object entry swallows the update (JS silently ignores
property writes on primitives; expando properties on arrays/regexes are not
observable in the built criteria and are not modelled); a falsy one is
replaced by a fresh operator object. -/
def formFilter (filter : Filter) (paramName opSym : String) (value : FilterValue) : Filter :=
  if opSym == "$eq" then insertOrReplace filter paramName (.direct value)
  else
    match filter.lookup paramName with
    | some (.ops m) => insertOrReplace filter paramName (.ops (insertOrReplace m opSym value))
    | some (.direct fv) =>
      if jsTruthyEntry (.direct fv) then filter
      else insertOrReplace filter paramName (.ops [(opSym, value)])
    | none => insertOrReplace filter paramName (.ops [(opSym, value)])

/-- Processing of one classified parameter: value pipeline, type resolution,
conversion, operator mapping, collapse and filter write, with the
diagnostics pushed in source order. -/
def processParamOp (cfg : Config) (fields : List (String × FieldSpec)) (validate : Bool)
    (st : Filter × List String) (paramName paramOp : String) (raw : RawValue) :
    Except String (Filter × List String) :=
  let paramValues := splitValues paramOp raw
  let dtErr := resolveDataType cfg.autoDetectTypes fields validate paramName paramOp paramValues
  let converted := convertValues cfg.dataTypeConverters dtErr.1 paramValues
  let convErrs :=
    if converted.any (· == JsValue.vUndefined) then
      ["Error converting to " ++ dtErr.1 ++ ": " ++ rawToString raw]
    else []
  match applyOperator paramOp converted with
  | .error e => .error e
  | .ok pr =>
    .ok (formFilter st.1 paramName pr.1 (collapseValue paramOp pr.2),
         st.2 ++ dtErr.2 ++ convErrs)

/-- The loop body for one raw parameter: skip reserved `__`-prefixed names,
split on `__`, validate the operator token (unknown tokens push a diagnostic
and are coerced to `eq`), then process. -/
def processParam (cfg : Config) (fields : List (String × FieldSpec)) (validate : Bool)
    (st : Filter × List String) (p : String × RawValue) :
    Except String (Filter × List String) :=
  if strStartsWith p.1 "__" then .ok st
  else
    let parts := jsSplit p.1 "__"
    let paramName := parts.headD ""
    match parts with
    | _ :: tok :: _ =>
      if validOperators.contains tok then
        processParamOp cfg fields validate st paramName tok p.2
      else
        processParamOp cfg fields validate
          (st.1, st.2 ++ ["Invalid operator: " ++ tok]) paramName "eq" p.2
    | _ => processParamOp cfg fields validate st paramName "eq" p.2

/-- The `for (paramSpec in params)` loop; an uncaught exception aborts it. -/
def foldParams (cfg : Config) (fields : List (String × FieldSpec)) (validate : Bool) :
    Filter × List String → List (String × RawValue) → Except String (Filter × List String)
  | st, [] => .ok st
  | st, p :: rest =>
    match processParam cfg fields validate st p with
    | .error e => .error e
    | .ok st' => foldParams cfg fields validate st' rest

/-- Is `filter[name] == undefined` (loose equality): key absent, or present
with the value `undefined`? -/
def jsEntryUndef : Option FilterEntry → Bool
  | none => true
  | some (.direct (.scalar .vUndefined)) => true
  | some _ => false

/-- The required-field validation loop (index.js lines 222-228).  Note the
source's `errors.push("Missing required filter on field: ", fieldName)`
pushes TWO entries per failure. -/
def requiredErrors (filter : Filter) : List (String × FieldSpec) → List String
  | [] => []
  | (name, fs) :: rest =>
    (if fs.required && jsEntryUndef (filter.lookup name) then
      ["Missing required filter on field: ", name]
     else []) ++ requiredErrors filter rest

/-- The `__sort` directive: split a string on commas (an array is used as
is); a `-` prefix means descending; strict mode reports unknown sort
fields.  Returns the sort mapping and the diagnostics in order. -/
def parseSort (fields : List (String × FieldSpec)) (validate : Bool) (raw : RawValue) :
    List (String × Int) × List String :=
  let sortSpecs := match raw with
    | .str s => jsSplit s ","
    | .arr xs => xs
  sortSpecs.foldl
    (fun acc s =>
      let sortField := if strStartsWith s "-" then strDropFirst s else s
      let direction : Int := if strStartsWith s "-" then -1 else 1
      let errs :=
        if validate && (fields.lookup sortField).isNone then
          acc.2 ++ ["Invalid sort field: " ++ sortField]
        else acc.2
      (insertOrReplace acc.1 sortField direction, errs))
    ([], [])

/-- Everything `processQuery` computes before the final throw-or-return: the
filter, the complete ordered diagnostic list, and the three directives. -/
structure CoreResult where
  filter : Filter
  errors : List String
  sort : Option (List (String × Int))
  limit : Option JsValue
  offset : Option JsValue
  deriving DecidableEq

/-- The body of `processQuery` up to (not including) the final
`if (errors.length > 0) throw errors; return ...`; `.error` is an uncaught
JS exception thrown while processing a parameter. -/
def processQueryCore (cfg : Config) (params : List (String × RawValue))
    (fields : List (String × FieldSpec)) (validate : Bool) :
    Except String CoreResult :=
  match foldParams cfg fields validate ([], []) params with
  | .error e => .error e
  | .ok st =>
    let errors := st.2 ++ requiredErrors st.1 fields
    let limit := match params.lookup "__limit" with
      | some rv => if jsTruthyRaw rv then some (js_parseInt (rawToString rv)) else none
      | none => none
    let offset := match params.lookup "__offset" with
      | some rv => if jsTruthyRaw rv then some (js_parseInt (rawToString rv)) else none
      | none => none
    let sortAndErrs : Option (List (String × Int)) × List String :=
      match params.lookup "__sort" with
      | some rv =>
        if jsTruthyRaw rv then
          let r := parseSort fields validate rv
          (some r.1, errors ++ r.2)
        else (none, errors)
      | none => (none, errors)
    .ok { filter := st.1, errors := sortAndErrs.2, sort := sortAndErrs.1,
          limit := limit, offset := offset }

/-- The outcome of one processing call: the thrown diagnostic list, or an
uncaught JS exception, or the returned query. -/
inductive QpmError where
  | thrown (errors : List String)
  | jsException (msg : String)
  deriving DecidableEq

/-- `processQuery`'s return value `{filter, sort, limit, offset}`. -/
structure QueryResult where
  filter : Filter
  sort : Option (List (String × Int))
  limit : Option JsValue
  offset : Option JsValue
  deriving DecidableEq

/-- The processor returned by the factory: run the body, then
`if (errors.length > 0) throw errors;` else return the result. -/
def processQuery (cfg : Config) (params : List (String × RawValue))
    (fields : List (String × FieldSpec)) (validate : Bool) :
    Except QpmError QueryResult :=
  match processQueryCore cfg params fields validate with
  | .error e => .error (.jsException e)
  | .ok c =>
    if 0 < c.errors.length then .error (.thrown c.errors)
    else .ok { filter := c.filter, sort := c.sort, limit := c.limit, offset := c.offset }

/-- A processor built from the factory with no options. -/
def defaultConfig : Config :=
  (qpm initialQpmState { autoDetect := none, converters := none }).2

/-- A caller-supplied `int` converter passed to a first `create()` call. -/
def leakConverter : String → JsValue := fun _ => .vStr "LEAK"

/-- Module state after `create({converters: {int: leakConverter}})`. -/
def stateAfterFirstCreate : QpmState :=
  (qpm initialQpmState { autoDetect := none, converters := some [("int", leakConverter)] }).1

/-- The configuration captured by a second, option-less `create()` call
made after the first one. -/
def secondCreateConfig : Config :=
  (qpm stateAfterFirstCreate { autoDetect := none, converters := none }).2

/- ---------------------------------------------------------------------
   Shared lemmas.
--------------------------------------------------------------------- -/

theorem lookup_insertOrReplace_self {β : Type} (l : List (String × β)) (k : String) (v : β) :
    (insertOrReplace l k v).lookup k = some v := by
  induction l with
  | nil => simp [insertOrReplace, List.lookup]
  | cons p t ih =>
    by_cases h : p.1 == k
    · simp [insertOrReplace, h, List.lookup]
    · simp only [insertOrReplace]
      rw [show (p.1 == k) = false by simpa using h]
      simp only [ite_false, List.lookup]
      have : (k == p.1) = false := by
        rw [beq_eq_false_iff_ne]
        simp only [beq_iff_eq] at h
        exact fun hk => h (Eq.symm hk)
      simp [this, ih]

theorem mapExcept_ok_length {α β : Type} (f : α → Except String β) (l : List α)
    (out : List β) (h : mapExcept f l = .ok out) : out.length = l.length := by
  induction l generalizing out with
  | nil => simp [mapExcept] at h; simp [← h]
  | cons a t ih =>
    simp only [mapExcept] at h
    cases hf : f a with
    | error e => rw [hf] at h; exact absurd h (by simp)
    | ok b =>
      rw [hf] at h
      cases ht : mapExcept f t with
      | error e => rw [ht] at h; exact absurd h (by simp)
      | ok bs =>
        rw [ht] at h
        cases h
        simp [ih bs ht]

theorem applyOperator_ok_length (paramOp : String) (vals : List JsValue)
    (pr : String × List JsValue) (h : applyOperator paramOp vals = .ok pr) :
    pr.2.length = vals.length := by
  unfold applyOperator at h
  by_cases hre : strContains paramOp "re"
  · simp only [hre, if_true] at h
    cases h
    simp
  · simp only [hre, if_false] at h
    by_cases hsw : strContains paramOp "sw"
    · simp only [hsw, if_true] at h
      cases hm : mapExcept (swRegex (strStartsWith paramOp "i")) vals with
      | error e => rw [hm] at h; exact absurd h (by simp)
      | ok vs =>
        rw [hm] at h
        cases h
        exact mapExcept_ok_length _ _ _ hm
    · simp only [hsw, if_false] at h
      by_cases hco : strContains paramOp "co"
      · simp only [hco, if_true] at h
        cases hm : mapExcept (coRegex (strStartsWith paramOp "i")) vals with
        | error e => rw [hm] at h; exact absurd h (by simp)
        | ok vs =>
          rw [hm] at h
          cases h
          exact mapExcept_ok_length _ _ _ hm
      · simp only [hco, if_false] at h
        by_cases heqa : paramOp == "eqa"
        · simp only [heqa, if_true] at h
          cases h
          rfl
        · simp only [heqa, if_false] at h
          cases h
          rfl

theorem foldParams_append (cfg : Config) (fields : List (String × FieldSpec))
    (validate : Bool) (st : Filter × List String) (l1 l2 : List (String × RawValue)) :
    foldParams cfg fields validate st (l1 ++ l2)
      = match foldParams cfg fields validate st l1 with
        | .error e => .error e
        | .ok st' => foldParams cfg fields validate st' l2 := by
  induction l1 generalizing st with
  | nil => simp [foldParams]
  | cons p t ih =>
    simp only [List.cons_append, foldParams]
    cases processParam cfg fields validate st p with
    | error e => simp
    | ok st' => simpa using ih st'

/- ---------------------------------------------------------------------
   Claim C1 — the built-in bool converter on the literal string "0".
--------------------------------------------------------------------- -/

/-- C1: the claim (and the source's own comment `// no, false, 0 => false`)
says the `bool` converter maps the literal `"0"` to false.  The code
computes `!/^n|^f/i.test(str) || str == '0'`, whose first disjunct is
already true for `"0"`: the converter registered as `bool` in the built-in
table maps `"0"` to `true`. -/
theorem c1_bool_converter_on_zero :
    defaultDataTypeConverters.lookup "bool" = some convBool
      ∧ convBool "0" = JsValue.vBool true := by
  exact ⟨rfl, rfl⟩

/- ---------------------------------------------------------------------
   Claim C2 — the `re` operator family and the `$in`/`$eq` choice.
--------------------------------------------------------------------- -/

/-- C2: the claim says every `re`-family operator whose token contains `in`
(`rein` AND `irein`) yields `$in`.  The source tests `paramOp == 'rein'`
only, so `x__irein=a,b` produces a direct `$eq` assignment of the array of
case-insensitive regexes (`{x: [/a/i, /b/i]}`), not `{x: {$in: [...]}}`. -/
theorem c2_irein_maps_to_eq :
    processQuery defaultConfig [("x__irein", .str "a,b")] [] false
      = .ok { filter := [("x", .direct (.arr [.vRegex "a" true, .vRegex "b" true]))],
              sort := none, limit := none, offset := none } := by
  rfl

/- ---------------------------------------------------------------------
   Claim C3 — independence of configurations built by separate create()
   calls.
--------------------------------------------------------------------- -/

/-- C3: the claim says custom converters passed to one `create()` call are
never observable from a processor built by a different `create()` call.  In
the source, `var dataTypeConverters = defaultDataTypeConverters` aliases the
shared module-level table and `dataTypeConverters[type] = opts.converters[type]`
writes through the alias, so the first call's custom `int` converter leaks:
a processor from a later option-less `create()` converts the auto-detected
int `"5"` with the first caller's converter. -/
theorem c3_custom_converter_leaks :
    processQuery secondCreateConfig [("a", .str "5")] [] false
      = .ok { filter := [("a", .direct (.scalar (.vStr "LEAK")))],
              sort := none, limit := none, offset := none }
      ∧ stateAfterFirstCreate.defaultConverters.lookup "int" = some leakConverter := by
  exact ⟨rfl, rfl⟩

/- ---------------------------------------------------------------------
   Claim C4 — array iff (more than one converted value, or multi-value
   operator).
--------------------------------------------------------------------- -/

theorem collapseValue_arr_iff (op : String) (vals : List JsValue) :
    (∃ l, collapseValue op vals = .arr l) ↔ (1 < vals.length ∨ isMultiValOp op = true) := by
  unfold collapseValue
  by_cases h : 1 < vals.length ∨ isMultiValOp op = true
  · simp only [h, if_true, iff_true]
    exact ⟨vals, rfl⟩
  · simp only [h, if_false, iff_false]
    rintro ⟨l, hl⟩
    exact absurd hl (by simp)

/-- C4: for a non-reserved parameter (written into a fresh field of the
filter), the stored filter value is an array iff the converted value list
has more than one element or the operator is multi-valued (`isMultiValOp`:
token containing `in`, or `all`, or `eqa`); otherwise it is the single
scalar.  The value lands either directly (for `$eq`) or as the sole entry
of a fresh operator object. -/
theorem c4_value_array_iff_multival (cfg : Config) (fields : List (String × FieldSpec))
    (validate : Bool) (filter : Filter) (errors : List String) (name op : String)
    (raw : RawValue) (filter' : Filter) (errors' : List String)
    (hnew : filter.lookup name = none)
    (hok : processParamOp cfg fields validate (filter, errors) name op raw
             = .ok (filter', errors')) :
    ∃ e, filter'.lookup name = some e ∧
      ∃ fv, (e = .direct fv ∨ ∃ opSym, e = .ops [(opSym, fv)]) ∧
        ((∃ l, fv = .arr l) ↔
          (1 < (convertValues cfg.dataTypeConverters
                 (resolveDataType cfg.autoDetectTypes fields validate name op
                   (splitValues op raw)).1
                 (splitValues op raw)).length
            ∨ isMultiValOp op = true)) := by
  simp only [processParamOp] at hok
  cases happ : applyOperator op
      (convertValues cfg.dataTypeConverters
        (resolveDataType cfg.autoDetectTypes fields validate name op (splitValues op raw)).1
        (splitValues op raw)) with
  | error e =>
    rw [happ] at hok
    exact absurd hok (by simp)
  | ok pr =>
    rw [happ] at hok
    rw [Except.ok.injEq, Prod.mk.injEq] at hok
    obtain ⟨hf, _⟩ := hok
    subst hf
    have hlen := applyOperator_ok_length op _ pr happ
    rw [← hlen]
    unfold formFilter
    by_cases hop : pr.1 == "$eq"
    · simp only [hop, if_true]
      exact ⟨.direct (collapseValue op pr.2), lookup_insertOrReplace_self _ _ _,
        collapseValue op pr.2, Or.inl rfl, collapseValue_arr_iff op pr.2⟩
    · simp only [hop, if_false, hnew]
      exact ⟨.ops [(pr.1, collapseValue op pr.2)], lookup_insertOrReplace_self _ _ _,
        collapseValue op pr.2, Or.inr ⟨pr.1, rfl⟩, collapseValue_arr_iff op pr.2⟩

theorem c4_value_array_iff_multival_witness :
    ([] : Filter).lookup "a" = none
      ∧ ∃ e, ([("a", FilterEntry.ops [("$in", FilterValue.arr [JsValue.vStr "x"])])] :
              Filter).lookup "a" = some e ∧
          ∃ fv, (e = .direct fv ∨ ∃ opSym, e = .ops [(opSym, fv)]) ∧
            ((∃ l, fv = .arr l) ↔
              (1 < (convertValues defaultConfig.dataTypeConverters
                     (resolveDataType defaultConfig.autoDetectTypes [] false "a" "in"
                       (splitValues "in" (.str "x"))).1
                     (splitValues "in" (.str "x"))).length
                ∨ isMultiValOp "in" = true)) :=
  ⟨rfl, c4_value_array_iff_multival defaultConfig [] false [] [] "a" "in" (.str "x")
    [("a", FilterEntry.ops [("$in", FilterValue.arr [JsValue.vStr "x"])])] [] rfl rfl⟩

/- ---------------------------------------------------------------------
   Claim C5 — the `sw` operator family: anchored, escaped regexes.
--------------------------------------------------------------------- -/

theorem mapExcept_swRegex_on_strings (ign : Bool) (vals : List String) :
    mapExcept (swRegex ign) (vals.map JsValue.vStr)
      = .ok (vals.map (fun s => JsValue.vRegex ("^" ++ regEscape s) ign)) := by
  induction vals with
  | nil => rfl
  | cons a t ih => simp [mapExcept, swRegex, ih]

/-- C5: for every `sw`-family operator applied to string values, each value
becomes a regular expression whose source is `^` followed by the
metacharacter-escaped value, with the case-insensitive flag iff the operator
begins with `i`, under `$eq` (`sw`, `isw`) or `$in` (`swin`, `iswin`); and
the round trip `{swvar__sw: "beg[]"}` yields `{swvar: /^beg\[\]/}`, the
brackets escaped to match literally. -/
theorem c5_sw_regex_anchored_escaped :
    (∀ vals : List String, applyOperator "sw" (vals.map JsValue.vStr)
      = .ok ("$eq", vals.map (fun s => JsValue.vRegex ("^" ++ regEscape s) false)))
    ∧ (∀ vals : List String, applyOperator "swin" (vals.map JsValue.vStr)
      = .ok ("$in", vals.map (fun s => JsValue.vRegex ("^" ++ regEscape s) false)))
    ∧ (∀ vals : List String, applyOperator "isw" (vals.map JsValue.vStr)
      = .ok ("$eq", vals.map (fun s => JsValue.vRegex ("^" ++ regEscape s) true)))
    ∧ (∀ vals : List String, applyOperator "iswin" (vals.map JsValue.vStr)
      = .ok ("$in", vals.map (fun s => JsValue.vRegex ("^" ++ regEscape s) true)))
    ∧ processQuery defaultConfig [("swvar__sw", .str "beg[]")] [] false
        = .ok { filter := [("swvar", .direct (.scalar (.vRegex "^beg\\[\\]" false)))],
                sort := none, limit := none, offset := none } := by
  refine ⟨?_, ?_, ?_, ?_, rfl⟩
  · intro vals
    show (match mapExcept (swRegex false) (vals.map JsValue.vStr) with
          | Except.error e => Except.error e
          | Except.ok vs => Except.ok ("$eq", vs)) = _
    rw [mapExcept_swRegex_on_strings]
  · intro vals
    show (match mapExcept (swRegex false) (vals.map JsValue.vStr) with
          | Except.error e => Except.error e
          | Except.ok vs => Except.ok ("$in", vs)) = _
    rw [mapExcept_swRegex_on_strings]
  · intro vals
    show (match mapExcept (swRegex true) (vals.map JsValue.vStr) with
          | Except.error e => Except.error e
          | Except.ok vs => Except.ok ("$eq", vs)) = _
    rw [mapExcept_swRegex_on_strings]
  · intro vals
    show (match mapExcept (swRegex true) (vals.map JsValue.vStr) with
          | Except.error e => Except.error e
          | Except.ok vs => Except.ok ("$in", vs)) = _
    rw [mapExcept_swRegex_on_strings]

theorem c5_sw_regex_anchored_escaped_witness :
    applyOperator "sw" ([JsValue.vStr "beg[]"])
      = .ok ("$eq", [JsValue.vRegex "^beg\\[\\]" false]) := by
  have h := c5_sw_regex_anchored_escaped.1 ["beg[]"]
  simpa using h

/- ---------------------------------------------------------------------
   Claim C6 — auto-detection: rule order, match condition, fallback.
--------------------------------------------------------------------- -/

theorem find?_first_match {α : Type} (p : α → Bool) (pre : List α) (a : α) (post : List α)
    (hpre : ∀ r ∈ pre, p r = false) (ha : p a = true) :
    (pre ++ a :: post).find? p = some a := by
  induction pre with
  | nil => simp [List.find?, ha]
  | cons x t ih =>
    have hx : p x = false := hpre x (by simp)
    simp only [List.cons_append, List.find?, hx]
    exact ih (fun r hr => hpre r (by simp [hr]))

/-- C6: for a field with no entry in the field specifications and an
operator other than `exists`: the rule list a processor scans is the
caller's rules followed by the built-ins; a rule matches iff its value
pattern accepts the first raw value or its field pattern accepts the field
name (the value pattern being the first, short-circuited disjunct); the
first matching rule's `dataType` is resolved; and with no matching rule the
type falls back to `'string'`. -/
theorem c6_autodetect_first_match :
    (∀ (st : QpmState) (userRules : List ADRule)
       (cs : Option (List (String × (String → JsValue)))),
      (qpm st { autoDetect := some userRules, converters := cs }).2.autoDetectTypes
        = userRules ++ defaultAutoDetectTypes)
    ∧ (∀ (ad : ADRule) (v0 name : String),
      ruleMatches ad v0 name = true ↔
        ((∃ p, ad.valuePattern = some p ∧ p v0 = true)
          ∨ (∃ p, ad.fieldPattern = some p ∧ p name = true)))
    ∧ (∀ (rules : List ADRule) (fields : List (String × FieldSpec)) (validate : Bool)
       (name op : String) (vals : List String) (pre : List ADRule) (ad : ADRule)
       (post : List ADRule),
      fields.lookup name = none → op ≠ "exists" →
      rules = pre ++ ad :: post →
      (∀ r ∈ pre, ruleMatches r (vals.headD "undefined") name = false) →
      ruleMatches ad (vals.headD "undefined") name = true →
      (resolveDataType rules fields validate name op vals).1 = ad.dataType)
    ∧ (∀ (rules : List ADRule) (fields : List (String × FieldSpec)) (validate : Bool)
       (name op : String) (vals : List String),
      fields.lookup name = none → op ≠ "exists" →
      (∀ r ∈ rules, ruleMatches r (vals.headD "undefined") name = false) →
      (resolveDataType rules fields validate name op vals).1 = "string") := by
  refine ⟨fun st userRules cs => rfl, ?_, ?_, ?_⟩
  · intro ad v0 name
    obtain ⟨fp, vp, dt⟩ := ad
    cases vp <;> cases fp <;> simp [ruleMatches]
  · intro rules fields validate name op vals pre ad post hlook hop hrules hpre had
    subst hrules
    have hbeq : (op == "exists") = false := by
      rw [beq_eq_false_iff_ne]
      exact hop
    simp only [resolveDataType, hlook, hbeq, Bool.false_eq_true, if_false,
      find?_first_match _ pre ad post hpre had]
  · intro rules fields validate name op vals hlook hop hall
    have hbeq : (op == "exists") = false := by
      rw [beq_eq_false_iff_ne]
      exact hop
    have hfind : rules.find? (fun ad => ruleMatches ad (vals.headD "undefined") name) = none := by
      rw [List.find?_eq_none]
      intro x hx
      simp only [Bool.not_eq_true]
      exact hall x hx
    simp only [resolveDataType, hlook, hbeq, Bool.false_eq_true, if_false, hfind]

theorem c6_autodetect_first_match_witness :
    (resolveDataType defaultAutoDetectTypes [] false "a" "eq" ["5"]).1 = "int" := by
  have h := c6_autodetect_first_match.2.2.1 defaultAutoDetectTypes [] false "a" "eq" ["5"]
    [adRuleIsBool, adRuleDateField] adRuleIntValue
    [adRuleFloatValue, adRuleBoolValue, adRuleDateValue]
    rfl (by decide) rfl (by decide) (by decide)
  exact h

/- ---------------------------------------------------------------------
   Claim C7 — the final throw-or-return step.
--------------------------------------------------------------------- -/

/-- C7 counterexample: the claim says a call with an empty diagnostic list
returns a `QueryResult`.  On `{x__sw: "5"}` the value auto-detects as `int`,
converts to the number `5`, and the `sw` branch's `regEscape(5)` calls
`.replace` on a number: the call raises an uncaught `TypeError` — with no
accumulated diagnostics and no returned result. -/
theorem c7_crash_counterexample :
    processQueryCore defaultConfig [("x__sw", .str "5")] [] false
      = .error "TypeError: pattern.replace is not a function"
    ∧ processQuery defaultConfig [("x__sw", .str "5")] [] false
      = .error (.jsException "TypeError: pattern.replace is not a function") := by
  exact ⟨rfl, rfl⟩

/-- C7 (amended): when the body completes without an uncaught exception, the
call raises exactly the complete ordered diagnostic list iff that list is
non-empty, and returns the query result iff it is empty — never both, and
never a partial result alongside errors; when the body throws, the exception
propagates and nothing is returned. -/
theorem c7_raise_xor_return :
    (∀ (cfg : Config) (params : List (String × RawValue))
       (fields : List (String × FieldSpec)) (validate : Bool) (c : CoreResult),
      processQueryCore cfg params fields validate = .ok c →
      (c.errors ≠ [] →
        processQuery cfg params fields validate = .error (.thrown c.errors))
      ∧ (c.errors = [] →
        processQuery cfg params fields validate
          = .ok { filter := c.filter, sort := c.sort, limit := c.limit, offset := c.offset }))
    ∧ (∀ (cfg : Config) (params : List (String × RawValue))
       (fields : List (String × FieldSpec)) (validate : Bool) (e : String),
      processQueryCore cfg params fields validate = .error e →
      processQuery cfg params fields validate = .error (.jsException e)) := by
  constructor
  · intro cfg params fields validate c h
    constructor
    · intro hne
      have hlen : 0 < c.errors.length := List.length_pos.mpr hne
      simp [processQuery, h, hlen]
    · intro he
      simp [processQuery, h, he]
  · intro cfg params fields validate e h
    simp [processQuery, h]

theorem c7_raise_xor_return_witness :
    processQuery defaultConfig [("a", .str "x")]
        [("a", { dataType := some "int", required := true })] false
      = .error (.thrown ["Error converting to int: x",
                         "Missing required filter on field: ", "a"]) := by
  have h := (c7_raise_xor_return.1 defaultConfig [("a", .str "x")]
    [("a", { dataType := some "int", required := true })] false
    { filter := [("a", .direct (.scalar .vUndefined))],
      errors := ["Error converting to int: x", "Missing required filter on field: ", "a"],
      sort := none, limit := none, offset := none } rfl).1 (by decide)
  exact h

/- ---------------------------------------------------------------------
   Claim C8 — unknown operator tokens: diagnostic, coercion to eq,
   processing continues.
--------------------------------------------------------------------- -/

/-- C8: a non-reserved parameter whose name splits into a field name and a
token outside the operator vocabulary is processed by appending the
`Invalid operator` diagnostic and continuing with the operator `eq`; the
parameters before and after it are processed exactly as usual — the loop
never aborts on classification. -/
theorem c8_unknown_op_coerced_eq (cfg : Config) (fields : List (String × FieldSpec))
    (validate : Bool) (st : Filter × List String) (pre post : List (String × RawValue))
    (spec name tok : String) (rest : List String) (v : RawValue)
    (hsplit : jsSplit spec "__" = name :: tok :: rest)
    (hres : strStartsWith spec "__" = false)
    (hinvalid : validOperators.contains tok = false) :
    foldParams cfg fields validate st (pre ++ (spec, v) :: post)
      = match foldParams cfg fields validate st pre with
        | .error e => .error e
        | .ok st1 =>
          match processParamOp cfg fields validate
              (st1.1, st1.2 ++ ["Invalid operator: " ++ tok]) name "eq" v with
          | .error e => .error e
          | .ok st2 => foldParams cfg fields validate st2 post := by
  rw [foldParams_append]
  cases foldParams cfg fields validate st pre with
  | error e => rfl
  | ok st1 =>
    show foldParams cfg fields validate st1 ((spec, v) :: post) = _
    simp only [foldParams, processParam, hres, Bool.false_eq_true, if_false, hsplit,
      hinvalid, List.headD]

theorem c8_unknown_op_coerced_eq_witness :
    jsSplit "x__foo" "__" = ["x", "foo"]
      ∧ strStartsWith "x__foo" "__" = false
      ∧ validOperators.contains "foo" = false
      ∧ foldParams defaultConfig [] false ([], []) [("x__foo", RawValue.str "1")]
          = .ok ([("x", .direct (.scalar (.vInt 1)))], ["Invalid operator: foo"]) :=
  ⟨rfl, rfl, rfl,
    c8_unknown_op_coerced_eq defaultConfig [] false ([], []) [] [] "x__foo" "x" "foo" []
      (RawValue.str "1") rfl rfl rfl⟩

/- ---------------------------------------------------------------------
   Claim C9 — the required-field check.
--------------------------------------------------------------------- -/

/-- C9 counterexample: the claim says the required check fails exactly when
the field is absent from the built filter.  With `a` marked required of type
`int` and the input `a=x`, conversion fails, the filter CONTAINS the key `a`
(with the value `undefined`), and the required diagnostic still fires,
because the source tests `filter[fieldName] == undefined`, which is also
true for a present-but-undefined value. -/
theorem c9_present_undefined_counterexample :
    processQueryCore defaultConfig [("a", .str "x")]
        [("a", { dataType := some "int", required := true })] false
      = .ok { filter := [("a", .direct (.scalar .vUndefined))],
              errors := ["Error converting to int: x",
                         "Missing required filter on field: ", "a"],
              sort := none, limit := none, offset := none }
    ∧ ([("a", FilterEntry.direct (.scalar .vUndefined))] : Filter).lookup "a"
        = some (.direct (.scalar .vUndefined)) := by
  exact ⟨rfl, rfl⟩

/-- C9 (amended): the required-field check adds its diagnostic exactly when
a required field's filter entry is loosely `undefined` — the key absent, or
present with the value `undefined` (e.g. after a conversion failure) — and
passes for any defined value, including the falsy `0` and `""` (and for any
operator object or array). -/
theorem c9_required_check (fields : List (String × FieldSpec)) (filter : Filter) :
    (requiredErrors filter fields = []
      ↔ ∀ p ∈ fields, p.2.required = true → jsEntryUndef (filter.lookup p.1) = false)
    ∧ jsEntryUndef none = true
    ∧ jsEntryUndef (some (.direct (.scalar .vUndefined))) = true
    ∧ (∀ v : JsValue, v ≠ .vUndefined → jsEntryUndef (some (.direct (.scalar v))) = false)
    ∧ (∀ m, jsEntryUndef (some (.ops m)) = false)
    ∧ (∀ l, jsEntryUndef (some (.direct (.arr l))) = false)
    ∧ jsEntryUndef (some (.direct (.scalar (.vInt 0)))) = false
    ∧ jsEntryUndef (some (.direct (.scalar (.vStr "")))) = false := by
  refine ⟨?_, rfl, rfl, ?_, fun m => rfl, fun l => rfl, rfl, rfl⟩
  · induction fields with
    | nil => simp [requiredErrors]
    | cons p t ih =>
      obtain ⟨name, fs⟩ := p
      simp only [requiredErrors, List.append_eq_nil, List.mem_cons]
      constructor
      · rintro ⟨h1, h2⟩ q hq hreq
        rcases hq with rfl | hq
        · by_contra hu
          rw [Bool.not_eq_false] at hu
          simp [hreq, hu] at h1
          simp [h1] at hreq
        · exact (ih.mp h2) q hq hreq
      · intro h
        constructor
        · by_cases hreq : fs.required = true
          · have hu := h (name, fs) (Or.inl rfl) hreq
            simp [hreq, hu]
          · rw [Bool.not_eq_true] at hreq
            simp [hreq]
        · exact ih.mpr (fun q hq hr => h q (Or.inr hq) hr)
  · intro v hv
    cases v <;> simp [jsEntryUndef] at hv ⊢

theorem c9_required_check_witness :
    requiredErrors [("a", .direct (.scalar (.vInt 0)))]
        [("a", { dataType := none, required := true }),
         ("b", { dataType := none, required := false })] = [] := by
  exact (c9_required_check
    [("a", { dataType := none, required := true }),
     ("b", { dataType := none, required := false })]
    [("a", .direct (.scalar (.vInt 0)))]).1.mpr (by decide)

/- ---------------------------------------------------------------------
   Claim C10 — a field specification without a dataType.
--------------------------------------------------------------------- -/

/-- C10: when the field has an entry in the field specifications but that
entry lacks a `dataType`, the resolved type is `'string'` for every
operator (including `exists`), every value, every rule list and either
strict-mode setting, and no diagnostic is recorded: the spec's presence
short-circuits auto-detection, the `exists` coercion to `bool`, and the
strict-mode missing-spec check. -/
theorem c10_spec_without_datatype (rules : List ADRule)
    (fields : List (String × FieldSpec)) (validate : Bool) (name op : String)
    (vals : List String) (fs : FieldSpec)
    (hf : fields.lookup name = some fs) (hdt : fs.dataType = none) :
    resolveDataType rules fields validate name op vals = ("string", []) := by
  simp [resolveDataType, hf, hdt]

theorem c10_spec_without_datatype_witness :
    ([("a", { dataType := none, required := false })] :
        List (String × FieldSpec)).lookup "a"
      = some { dataType := none, required := false }
    ∧ resolveDataType defaultAutoDetectTypes
        [("a", { dataType := none, required := false })] true "a" "exists" ["123"]
      = ("string", []) :=
  ⟨rfl, c10_spec_without_datatype defaultAutoDetectTypes
    [("a", { dataType := none, required := false })] true "a" "exists" ["123"]
    { dataType := none, required := false } rfl rfl⟩

end Qpm
